import Mathlib

/-!
Verification of the Session Analytics Pipeline of the `october19` repository.

The definitions below are a shallow embedding of the TypeScript code in
`src/app/pages/progress/progress.page.ts`.  Conventions of the embedding:

* Instants are epoch milliseconds, modelled as `Int`.  The local timezone is
  modelled as a fixed zero offset with no daylight-saving transitions, so the
  local calendar day containing an instant `t` is `t / dayMs` (floor division,
  which is what `/` on `Int` performs for a positive divisor).
* JavaScript numbers appearing in the aggregation formulas are modelled by
  exact arithmetic (`Nat` counts, `Math.round` as round-half-up on exact
  rationals).
* Missing or falsy numeric fields are modelled as `0`, matching the
  pervasive `(s.field || 0)` defaulting in the source; the timestamp fallback
  `s.timestamp || s.createdAt || 0` becomes `effectiveTimestamp`.
* Effects (Firebase calls, `localStorage`, the in-process cache) are modelled
  by passing an explicit environment in and returning the performed writes in
  the result; `try`/`catch` around a fallible call becomes a `match` on an
  `Except`/`Option` value.  Console logging and the chart/DOM work are pure
  presentation and are not modelled; bucket display labels (produced with
  `toLocaleDateString`) are likewise presentation-only and omitted from the
  `TimeBucket` record.
-/

/-- One completed quiz attempt, as stored by the game screens
(`SessionRecord` in the spec).  Numeric fields default to `0` when the
originating screen omitted them, matching the `(s.field || 0)` reads in
`progress.page.ts`; `timestamp`/`createdAt` are epoch milliseconds with `0`
standing for a missing (falsy) value. -/
structure SessionRecord where
  category : String
  totalQuestions : Nat
  correctAnswers : Nat
  skipped : Nat
  totalTime : Nat
  timestamp : Int
  createdAt : Int
deriving DecidableEq, Repr

/-- The `overallStats` object of `ProgressPage`
(`{accuracy, avgTimePerCard, totalCards, skippedCards}`); the spec calls the
last two fields `cardsReviewed` and `cardsSkipped`. -/
structure OverallStats where
  accuracy : Nat
  avgTimePerCard : Nat
  totalCards : Nat
  skippedCards : Nat
deriving DecidableEq, Repr

/-- `Math.round` of the nonnegative exact quotient `num / den`
(round half up): `(2 * num + den) / (2 * den)` in natural division. -/
def jsRound (num den : Nat) : Nat := (2 * num + den) / (2 * den)

/-- `s.timestamp || s.createdAt || 0` from `progress.page.ts`. -/
def effectiveTimestamp (s : SessionRecord) : Int :=
  if s.timestamp ≠ 0 then s.timestamp else s.createdAt

/-- `calculateOverallStats` (progress.page.ts:418-442): zeroes for an empty
list, otherwise sums the four numeric fields with `reduce` and divides with a
`totalQuestions > 0` guard, rounding the two quotients. -/
def calculateOverallStats (sessions : List SessionRecord) : OverallStats :=
  if sessions.length = 0 then
    { accuracy := 0, avgTimePerCard := 0, totalCards := 0, skippedCards := 0 }
  else
    let totalQuestions := sessions.foldl (fun sum s => sum + s.totalQuestions) 0
    let totalCorrect := sessions.foldl (fun sum s => sum + s.correctAnswers) 0
    let totalTime := sessions.foldl (fun sum s => sum + s.totalTime) 0
    let totalSkipped := sessions.foldl (fun sum s => sum + s.skipped) 0
    { accuracy := if 0 < totalQuestions then jsRound (100 * totalCorrect) totalQuestions else 0
      avgTimePerCard := if 0 < totalQuestions then jsRound totalTime totalQuestions else 0
      totalCards := totalQuestions
      skippedCards := totalSkipped }

/-- Collapse runs of whitespace to a single hyphen
(the `.replace(/\s+/g, '-')` in `isSessionInCategory`); the `Bool` argument
records whether the previous character was part of a whitespace run. -/
def collapseWhitespaceAux : Bool → List Char → List Char
  | _, [] => []
  | prevWs, c :: rest =>
    if c.isWhitespace then
      if prevWs then collapseWhitespaceAux true rest
      else '-' :: collapseWhitespaceAux true rest
    else c :: collapseWhitespaceAux false rest

/-- `(raw || '').toString().toLowerCase().replace(/\s+/g, '-')` from
`isSessionInCategory` (progress.page.ts:665). -/
def normalizeCategory (raw : String) : String :=
  String.mk (collapseWhitespaceAux false (raw.data.map Char.toLower))

/-- The category test of `isSessionInCategory` on the raw category string
(progress.page.ts:663-671). -/
def categoryMatches (raw catKey : String) : Bool :=
  let c := normalizeCategory raw
  if catKey = "category-match" then
    c = "category-match" || c = "categorymatch" || c = "category match"
  else
    c = catKey || c = "name-that-memory-" ++ catKey

/-- `isSessionInCategory(session, catKey)` (progress.page.ts:663-671). -/
def isSessionInCategory (session : SessionRecord) (catKey : String) : Bool :=
  categoryMatches session.category catKey

/-- Modelled from the spec: the source has no standalone
`CategoryClassifier.classify`; it only ships the per-category predicate
`isSessionInCategory`, which `getChartData` evaluates against the four
canonical keys.  Following spec section 4.1, `classify` returns the first
canonical key whose accepted-spellings table (exactly the tests of
`isSessionInCategory`) matches, and the catch-all `other` when none does. -/
def classify (raw : String) : String :=
  if categoryMatches raw "people" then "people"
  else if categoryMatches raw "places" then "places"
  else if categoryMatches raw "objects" then "objects"
  else if categoryMatches raw "category-match" then "category-match"
  else "other"

/-- Milliseconds in one calendar day of the fixed-offset model. -/
def dayMs : Int := 86400000

/-- The calendar day index (days since the epoch) containing instant `t`;
`Int` division is floor division for the positive divisor `dayMs`. -/
def dayIndex (t : Int) : Int := t / dayMs

/-- The midnight instant of the calendar day containing `t`
(a `setHours(0, 0, 0, 0)` in the fixed-offset model). -/
def startOfDay (t : Int) : Int := dayMs * dayIndex t

/-- Proleptic-Gregorian civil date `(year, month 1..12, day 1..31)` of a day
index, after Hinnant, with floor division throughout. -/
def civilFromDays (z : Int) : Int × Int × Int :=
  let z2 := z + 719468
  let era := z2 / 146097
  let doe := z2 - era * 146097
  let yoe := (doe - doe / 1460 + doe / 36524 - doe / 146096) / 365
  let y := yoe + era * 400
  let doy := doe - (365 * yoe + yoe / 4 - yoe / 100)
  let mp := (5 * doy + 2) / 153
  let d := doy - (153 * mp + 2) / 5 + 1
  let m := mp + (if mp < 10 then 3 else (-9 : Int))
  (if m ≤ 2 then y + 1 else y, m, d)

/-- Day index of a proleptic-Gregorian civil date, after Hinnant. -/
def daysFromCivil (y m d : Int) : Int :=
  let y2 := y - (if m ≤ 2 then 1 else 0)
  let era := y2 / 400
  let yoe := y2 - era * 400
  let mp := (m + 9) % 12
  let doy := (153 * mp + 2) / 5 + d - 1
  let doe := yoe * 365 + yoe / 4 - yoe / 100 + doy
  era * 146097 + doe - 719468

/-- `String(n).padStart(2, '0')` for the nonnegative date components. -/
def pad2 (n : Int) : String :=
  if n < 10 then "0" ++ toString n else toString n

/-- The local `YYYY-MM-DD` bucket key built from an instant
(the `localYear`/`localMonth`/`localDay` key construction in
`getChartDateRangeFromSessions`). -/
def dateKey (t : Int) : String :=
  let c := civilFromDays (dayIndex t)
  toString c.1 ++ "-" ++ pad2 c.2.1 ++ "-" ++ pad2 c.2.2

/-- A chart bucket `{key, start, end}` (progress.page.ts builds these in
`getChartDateRangeFromSessions`); the display `label` is presentation-only
and omitted.  `end` is a Lean keyword, hence the field name `endTime`. -/
structure TimeBucket where
  key : String
  start : Int
  endTime : Int
deriving DecidableEq, Repr

/-- One whole-day bucket starting at the midnight instant `dStart`, closed at
`23:59:59.999`. -/
def mkDayBucket (dStart : Int) : TimeBucket :=
  { key := dateKey dStart, start := dStart, endTime := dStart + dayMs - 1 }

/-- The `YYYY-MM` key of a month bucket. -/
def monthKey (y m : Int) : String := toString y ++ "-" ++ pad2 m

/-- The month bucket for the zero-based month count `total = year * 12 + month0`,
normalized the way the JavaScript `Date` constructor normalizes an
out-of-range month argument; it spans the first local instant of the month
through `23:59:59.999` of its last day. -/
def mkMonthBucket (total : Int) : TimeBucket :=
  let y := total / 12
  let m0 := total % 12
  let y2 := (total + 1) / 12
  let m02 := (total + 1) % 12
  { key := monthKey y (m0 + 1)
    start := daysFromCivil y (m0 + 1) 1 * dayMs
    endTime := daysFromCivil y2 (m02 + 1) 1 * dayMs - 1 }

/-- The earliest-session fold of the `week`/`month` branches:
`sessions.reduce((earliest, s) => date(s) < earliest ? date(s) : earliest,
date(sessions[0]))`, on effective timestamps. -/
def earliestSessionTs (s0 : SessionRecord) (sessions : List SessionRecord) : Int :=
  sessions.foldl
    (fun earliest s =>
      if effectiveTimestamp s < earliest then effectiveTimestamp s else earliest)
    (effectiveTimestamp s0)

/-- Insert into a `≤`-sorted list of day indices, keeping it sorted. -/
def insertSortedInt (x : Int) : List Int → List Int
  | [] => [x]
  | y :: ys => if x ≤ y then x :: y :: ys else y :: insertSortedInt x ys

/-- Ascending sort of day indices (the `Array.from(set).sort()` of the
`all` branch; for four-digit years the lexicographic sort of `YYYY-MM-DD`
keys coincides with the numeric sort of day indices). -/
def sortInts (l : List Int) : List Int := l.foldr insertSortedInt []

/-- First-occurrence deduplication (the `Set` of the `all` branch). -/
def uniqueInts (l : List Int) : List Int :=
  l.foldl (fun acc x => if x ∈ acc then acc else acc ++ [x]) []

/-- `getChartDateRangeFromSessions` (progress.page.ts:686-986), the
TimeBucketer.  `now` is the wall clock (`new Date()`), and
`customStartDate` / `customEndDate` are the parsed custom-range bounds
(`none` models the empty string, which the source replaces by `new Date()`).
Branches, as in the source:
* `today`: one bucket for the current local day;
* `week`: the current day if there are no sessions, otherwise 8 consecutive
  day buckets anchored at the local day of the earliest session;
* `month`: the current month if there are no sessions, otherwise 5
  consecutive month buckets anchored at the month of the earliest session;
* `all`: one bucket per distinct local day occurring in the sessions,
  ascending (empty sessions give no buckets);
* `custom`: one bucket per day from the custom start day through the custom
  end day;
* anything else: the last 7 days ending today. -/
def getChartDateRangeFromSessions (selectedPeriod : String) (now : Int)
    (customStartDate customEndDate : Option Int)
    (sessions : List SessionRecord) : List TimeBucket :=
  if selectedPeriod = "today" then
    [mkDayBucket (startOfDay now)]
  else if selectedPeriod = "week" then
    match sessions with
    | [] => [mkDayBucket (startOfDay now)]
    | s0 :: _ =>
      let earliest := earliestSessionTs s0 sessions
      (List.range 8).map (fun i => mkDayBucket (startOfDay earliest + i * dayMs))
  else if selectedPeriod = "month" then
    match sessions with
    | [] =>
      let c := civilFromDays (dayIndex now)
      [mkMonthBucket (c.1 * 12 + (c.2.1 - 1))]
    | s0 :: _ =>
      let earliest := earliestSessionTs s0 sessions
      let c := civilFromDays (dayIndex earliest)
      (List.range 5).map (fun i => mkMonthBucket (c.1 * 12 + (c.2.1 - 1) + i))
  else if selectedPeriod = "all" then
    match sessions with
    | [] => []
    | _ :: _ =>
      (sortInts (uniqueInts (sessions.map (fun s => dayIndex (effectiveTimestamp s))))).map
        (fun d => mkDayBucket (d * dayMs))
  else if selectedPeriod = "custom" then
    let startD := startOfDay (customStartDate.getD now)
    let endD := startOfDay (customEndDate.getD now) + dayMs - 1
    (List.range ((endD - startD) / dayMs + 1).toNat).map
      (fun i => mkDayBucket (startD + i * dayMs))
  else
    (List.range 7).map (fun j => mkDayBucket (startOfDay now - (6 - (j : Int)) * dayMs))

/-- `filterSessionsByPeriod` (progress.page.ts:1149-1166): `all` passes every
session through; otherwise sessions are kept when their timestamp lies
between the start of the first bucket and the end of the last one, and an
empty bucket list keeps nothing. -/
def filterSessionsByPeriod (selectedPeriod : String) (now : Int)
    (customStartDate customEndDate : Option Int)
    (sessions : List SessionRecord) : List SessionRecord :=
  if selectedPeriod = "all" then sessions
  else
    let dateBuckets :=
      getChartDateRangeFromSessions selectedPeriod now customStartDate customEndDate sessions
    match dateBuckets.head?, dateBuckets.getLast? with
    | some b0, some bl =>
      sessions.filter (fun s =>
        decide (b0.start ≤ effectiveTimestamp s) && decide (effectiveTimestamp s ≤ bl.endTime))
    | _, _ => []

/-- The containment test of `groupSessionsIntoBuckets`:
`sessionDate >= dr.start && sessionDate <= dr.end` (progress.page.ts:1003),
a closed interval including the `23:59:59.999` end instant. -/
def bucketContains (b : TimeBucket) (t : Int) : Bool :=
  decide (b.start ≤ t) && decide (t ≤ b.endTime)

/-- The first bucket of `dateRange`, in list order, containing the instant
(the inner `for`/`break` of `groupSessionsIntoBuckets`). -/
def firstMatchingBucket (dateRange : List TimeBucket) (t : Int) : Option TimeBucket :=
  dateRange.find? (fun b => bucketContains b t)

/-- `groupSessionsIntoBuckets` (progress.page.ts:992-1025): every session is
pushed onto the list of the first bucket containing its timestamp and is
dropped when no bucket matches.  The JavaScript map object keyed by bucket
key is modelled as a total function from keys to session lists, empty
outside the keys of `dateRange`. -/
def groupSessionsIntoBuckets (sessions : List SessionRecord)
    (dateRange : List TimeBucket) : String → List SessionRecord :=
  sessions.foldl
    (fun map s =>
      match firstMatchingBucket dateRange (effectiveTimestamp s) with
      | some b => fun k => if k = b.key then map k ++ [s] else map k
      | none => map)
    (fun _ => [])

/-- Provenance tier of the record set, spec section 3 (`SourceTier`). -/
inductive SourceTier where
  | Live : SourceTier
  | Cached : SourceTier
  | Fallback : SourceTier
deriving DecidableEq, Repr

/-- Modelled from the spec: the source exposes provenance only through the
`dataSource` label strings of `progress.page.ts`; spec section 3 abstracts
them into the `SourceTier` enumeration, and spec section 7 places the
empty-durable-store outcome (label `No Data`) in the `Fallback` tier. -/
def tierOfDataSource : String → Option SourceTier
  | "Firebase" => some SourceTier.Live
  | "Firebase (Real-time)" => some SourceTier.Live
  | "Cached Data" => some SourceTier.Cached
  | "Local Storage" => some SourceTier.Fallback
  | "No Data" => some SourceTier.Fallback
  | _ => none

/-- The storage world visible to `loadProgressData`:
the remote fetch outcome (`getUserGameSessions`, an `Except` standing for the
`try`/`catch`), the process-local cache (`getCachedData('gameRecords', [])`)
and the parse of the durable per-user `localStorage` entry (`none` models a
`JSON.parse` throw, which the source swallows into `[]`). -/
structure LoadEnv where
  remote : Except Unit (List SessionRecord)
  cachedGameRecords : List SessionRecord
  localStored : Option (List SessionRecord)

/-- The state `loadProgressData` leaves behind: the resolved record set, the
`dataSource` label, the `isFirebaseConnected` flag, the cache write it
performed (`none` when `cacheData` was not called) and the published
`overallStats`. -/
structure LoadResult where
  sessions : List SessionRecord
  dataSource : String
  isFirebaseConnected : Bool
  cacheWrite : Option (List SessionRecord)
  overallStats : OverallStats
  isLoading : Bool
deriving Repr

/-- `loadProgressData` (progress.page.ts:130-194).  On remote success the
label is `Firebase`; on failure the process-local cache is consulted and, when
empty, the durable store (parse failures becoming `[]`, label `Local Storage`
or `No Data` by emptiness).  The resolved set is then filtered to the
selected period; a non-empty filtered set is aggregated and the resolved set
written through to the cache, an empty one zeroes the stats and writes no
cache.  The `updateFirebaseStats` push and all logging are effects on the
remote stats document only, swallowed by their own `try`/`catch`, and are not
modelled; every fallible step the method performs is caught inside it, so the
function is total and no exception escapes. -/
def loadProgressData (env : LoadEnv) (selectedPeriod : String) (now : Int)
    (customStartDate customEndDate : Option Int) : LoadResult :=
  let resolved :=
    match env.remote with
    | Except.ok s => (s, true, "Firebase")
    | Except.error _ =>
      let cached := env.cachedGameRecords
      if cached.length = 0 then
        let s := env.localStored.getD []
        (s, false, if 0 < s.length then "Local Storage" else "No Data")
      else (cached, false, "Cached Data")
  let sessions := resolved.1
  let filtered :=
    filterSessionsByPeriod selectedPeriod now customStartDate customEndDate sessions
  { sessions := sessions
    dataSource := resolved.2.2
    isFirebaseConnected := resolved.2.1
    cacheWrite := if 0 < filtered.length then some sessions else none
    overallStats :=
      if 0 < filtered.length then calculateOverallStats filtered
      else { accuracy := 0, avgTimePerCard := 0, totalCards := 0, skippedCards := 0 }
    isLoading := false }

/-- What `saveGameSession` leaves behind: the durable per-user list after the
call, whether the remote write went through, and whether an error was caught
and logged (never rethrown). -/
structure SaveResult where
  localAfter : List SessionRecord
  remoteSaved : Bool
  errorCaught : Bool
deriving DecidableEq, Repr

/-- The record actually persisted by `saveGameSession`:
`{...sessionData, timestamp: sessionData.timestamp || Date.now()}`. -/
def sessionWithTimestamp (rec : SessionRecord) (nowTs : Int) : SessionRecord :=
  if rec.timestamp ≠ 0 then rec else { rec with timestamp := nowTs }

/-- `ProgressPage.saveGameSession` (progress.page.ts:1085-1115), the append
operation.  One `try`/`catch` wraps both writes: the awaited remote
`saveGameSession` runs first and, only if it did not throw, the record is
appended to the durable per-user `localStorage` list; a throw jumps to the
`catch`, which logs and returns normally.  `remoteOk` is the outcome of the
remote write and `existing` the durable list read back by `JSON.parse`. -/
def saveGameSession (remoteOk : Bool) (existing : List SessionRecord)
    (rec : SessionRecord) (nowTs : Int) : SaveResult :=
  let recWithTs := sessionWithTimestamp rec nowTs
  if remoteOk then
    { localAfter := existing ++ [recWithTs], remoteSaved := true, errorCaught := false }
  else
    { localAfter := existing, remoteSaved := false, errorCaught := true }

/-- The delay, in milliseconds, that `setupAutoRefresh`
(progress.page.ts:1215-1229) passes to `setInterval`; the literal is `3000`
although the comment beside it reads `// 30 seconds`. -/
def autoRefreshIntervalMs : Nat := 3000

/-- The staleness gate evaluated on each timer firing:
`Date.now() - this.lastDataUpdate > 30000` (progress.page.ts:1218-1221). -/
def autoRefreshFires (nowMs lastDataUpdate : Int) : Bool :=
  decide (nowMs - lastDataUpdate > 30000)

theorem foldl_add_map_sum (f : SessionRecord → Nat) (l : List SessionRecord) (a : Nat) :
    l.foldl (fun acc s => acc + f s) a = a + (l.map f).sum := by
  induction l generalizing a with
  | nil => simp
  | cons s t ih => simp [ih, Nat.add_assoc]

theorem jsRound_eq_floor (n d : Nat) (hd : 0 < d) :
    jsRound n d = Nat.floor ((n : ℚ) / d + 1 / 2) := by
  have hd0 : (d : ℚ) ≠ 0 := Nat.cast_ne_zero.mpr hd.ne'
  have h : (n : ℚ) / d + 1 / 2 = ((2 * n + d : ℕ) : ℚ) / ((2 * d : ℕ) : ℚ) := by
    push_cast
    field_simp
    ring
  rw [h, Nat.floor_div_nat, Nat.floor_natCast]
  rfl

theorem calculateOverallStats_formula (sessions : List SessionRecord) :
    calculateOverallStats sessions =
      { accuracy :=
          if 0 < (sessions.map SessionRecord.totalQuestions).sum then
            jsRound (100 * (sessions.map SessionRecord.correctAnswers).sum)
              (sessions.map SessionRecord.totalQuestions).sum
          else 0
        avgTimePerCard :=
          if 0 < (sessions.map SessionRecord.totalQuestions).sum then
            jsRound (sessions.map SessionRecord.totalTime).sum
              (sessions.map SessionRecord.totalQuestions).sum
          else 0
        totalCards := (sessions.map SessionRecord.totalQuestions).sum
        skippedCards := (sessions.map SessionRecord.skipped).sum } := by
  cases sessions with
  | nil => simp [calculateOverallStats]
  | cons s t => simp [calculateOverallStats, foldl_add_map_sum]

/-- The two example sessions of the spec: `{total:10, correct:8, time:100}`. -/
def exSessionA : SessionRecord :=
  { category := "people", totalQuestions := 10, correctAnswers := 8, skipped := 0,
    totalTime := 100, timestamp := 1, createdAt := 0 }

/-- The two example sessions of the spec: `{total:5, correct:5, time:50}`. -/
def exSessionB : SessionRecord :=
  { category := "places", totalQuestions := 5, correctAnswers := 5, skipped := 0,
    totalTime := 50, timestamp := 2, createdAt := 0 }

/-- C1: for every finite session list, `calculateOverallStats` returns
`totalCards` (the cardsReviewed of the spec) equal to the sum of the
`totalQuestions` fields, `skippedCards` equal to the sum of the `skipped`
fields, `accuracy` equal to the rounded percentage of summed correct answers
over summed questions and `avgTimePerCard` equal to the rounded quotient of
summed time over summed questions, the last two being `0` when the summed
question count is `0`; `jsRound` is exactly rounding to the nearest integer
(half up) of the exact quotient; and on the two spec example sessions the
result is accuracy `87`, avgTimePerCard `10`, cardsReviewed `15`. -/
theorem C1_aggregate_formula :
    (∀ sessions : List SessionRecord,
      calculateOverallStats sessions =
        { accuracy :=
            if 0 < (sessions.map SessionRecord.totalQuestions).sum then
              jsRound (100 * (sessions.map SessionRecord.correctAnswers).sum)
                (sessions.map SessionRecord.totalQuestions).sum
            else 0
          avgTimePerCard :=
            if 0 < (sessions.map SessionRecord.totalQuestions).sum then
              jsRound (sessions.map SessionRecord.totalTime).sum
                (sessions.map SessionRecord.totalQuestions).sum
            else 0
          totalCards := (sessions.map SessionRecord.totalQuestions).sum
          skippedCards := (sessions.map SessionRecord.skipped).sum })
    ∧ (∀ n d : Nat, 0 < d → jsRound n d = Nat.floor ((n : ℚ) / d + 1 / 2))
    ∧ calculateOverallStats [exSessionA, exSessionB] =
        { accuracy := 87, avgTimePerCard := 10, totalCards := 15, skippedCards := 0 } :=
  ⟨calculateOverallStats_formula, jsRound_eq_floor, by decide⟩

/-- C1 witness: the round-half-up bridge evaluated at the spec example
quotient `(8 + 5) * 100 / (10 + 5)`. -/
theorem C1_aggregate_formula_witness :
    0 < 15 ∧ jsRound 1300 15 = Nat.floor (((1300 : ℕ) : ℚ) / ((15 : ℕ) : ℚ) + 1 / 2) :=
  ⟨by decide, C1_aggregate_formula.2.1 1300 15 (by decide)⟩

theorem filterSessionsByPeriod_nil (p : String) (now : Int) (cs ce : Option Int) :
    filterSessionsByPeriod p now cs ce [] = [] := by
  unfold filterSessionsByPeriod
  split
  · rfl
  · dsimp only
    split <;> simp

/-- C5: aggregating the empty record list yields exactly zero in all four
fields, for every period mode (the period filter of an empty list is empty
in every mode) and every category restriction. -/
theorem C5_empty_aggregate_zero :
    (∀ (selectedPeriod : String) (now : Int) (cs ce : Option Int) (catKey : String),
      calculateOverallStats
        ((filterSessionsByPeriod selectedPeriod now cs ce []).filter
          (fun s => isSessionInCategory s catKey)) =
        { accuracy := 0, avgTimePerCard := 0, totalCards := 0, skippedCards := 0 })
    ∧ calculateOverallStats [] =
        { accuracy := 0, avgTimePerCard := 0, totalCards := 0, skippedCards := 0 } := by
  refine ⟨fun p now cs ce catKey => ?_, rfl⟩
  rw [filterSessionsByPeriod_nil]
  rfl

/-- A non-empty session whose question count is zero but whose other numeric
fields are not. -/
def zeroQuestionSession : SessionRecord :=
  { category := "people", totalQuestions := 0, correctAnswers := 3, skipped := 2,
    totalTime := 50, timestamp := 5, createdAt := 0 }

/-- C10: on any non-empty session list whose summed question count is zero,
the guarded divisions never run: accuracy and avgTimePerCard (and
totalCards) are exactly `0`, with no undefined value, even when correct
answers or total time are non-zero. -/
theorem C10_zero_questions_guarded (sessions : List SessionRecord)
    (_hne : sessions ≠ [])
    (hzero : (sessions.map SessionRecord.totalQuestions).sum = 0) :
    (calculateOverallStats sessions).accuracy = 0 ∧
    (calculateOverallStats sessions).avgTimePerCard = 0 ∧
    (calculateOverallStats sessions).totalCards = 0 := by
  rw [calculateOverallStats_formula]
  simp [hzero]

/-- C10 witness: a single session carrying `correctAnswers = 3` and
`totalTime = 50` against zero questions aggregates to zeroes. -/
theorem C10_zero_questions_guarded_witness :
    ([zeroQuestionSession] ≠ []) ∧
    (([zeroQuestionSession].map SessionRecord.totalQuestions).sum = 0) ∧
    ((calculateOverallStats [zeroQuestionSession]).accuracy = 0 ∧
     (calculateOverallStats [zeroQuestionSession]).avgTimePerCard = 0 ∧
     (calculateOverallStats [zeroQuestionSession]).totalCards = 0) :=
  ⟨by decide, by decide,
    C10_zero_questions_guarded [zeroQuestionSession] (by decide) (by decide)⟩

theorem earliest_fold_le (l : List SessionRecord) (a : Int) :
    l.foldl
      (fun earliest s =>
        if effectiveTimestamp s < earliest then effectiveTimestamp s else earliest)
      a ≤ a := by
  induction l generalizing a with
  | nil => simp
  | cons s t ih =>
    simp only [List.foldl_cons]
    refine le_trans (ih _) ?_
    split <;> omega

theorem earliest_fold_le_mem (l : List SessionRecord) (a : Int) :
    ∀ x ∈ l,
      l.foldl
        (fun earliest s =>
          if effectiveTimestamp s < earliest then effectiveTimestamp s else earliest)
        a ≤ effectiveTimestamp x := by
  induction l generalizing a with
  | nil => simp
  | cons s t ih =>
    intro x hx
    simp only [List.foldl_cons]
    rcases List.mem_cons.mp hx with h | h
    · subst h
      refine le_trans (earliest_fold_le t _) ?_
      split <;> omega
    · exact ih _ x h

theorem earliest_fold_attained (l : List SessionRecord) (a : Int) :
    l.foldl
      (fun earliest s =>
        if effectiveTimestamp s < earliest then effectiveTimestamp s else earliest)
      a = a ∨
    ∃ x ∈ l,
      l.foldl
        (fun earliest s =>
          if effectiveTimestamp s < earliest then effectiveTimestamp s else earliest)
        a = effectiveTimestamp x := by
  induction l generalizing a with
  | nil => simp
  | cons s t ih =>
    simp only [List.foldl_cons]
    rcases ih (if effectiveTimestamp s < a then effectiveTimestamp s else a) with h | ⟨x, hx, hfx⟩
    · by_cases hc : effectiveTimestamp s < a
      · right
        refine ⟨s, List.mem_cons_self s t, ?_⟩
        rw [h]
        simp [hc]
      · left
        rw [h]
        simp [hc]
    · right
      exact ⟨x, List.mem_cons_of_mem _ hx, hfx⟩

theorem week_buckets_eq (now : Int) (s0 : SessionRecord) (rest : List SessionRecord) :
    getChartDateRangeFromSessions "week" now none none (s0 :: rest) =
      (List.range 8).map
        (fun (i : Nat) =>
          mkDayBucket (startOfDay (earliestSessionTs s0 (s0 :: rest)) + (i : Int) * dayMs)) :=
  rfl

/-- First example session of the week-anchoring test: March 3, 2025 at
01:00 local time (epoch day 20150). -/
def marchSessionA : SessionRecord :=
  { category := "people", totalQuestions := 10, correctAnswers := 8, skipped := 0,
    totalTime := 100, timestamp := 1740963600000, createdAt := 0 }

/-- Second example session, later on March 4, 2025. -/
def marchSessionB : SessionRecord :=
  { category := "places", totalQuestions := 5, correctAnswers := 5, skipped := 0,
    totalTime := 50, timestamp := 1741100000000, createdAt := 0 }

/-- C2: on a non-empty record list, the week mode emits exactly 8
consecutive one-day buckets; the first bucket is the local calendar day of
the minimum effective timestamp (the anchoring fold is a lower bound of all
record timestamps and is attained by one of them), bucket `i` spans exactly
the day `i` days later, and the result does not depend on the current date.
In particular, records whose minimum timestamp falls on March 3, 2025 yield
the 8 day buckets March 3 through March 10, 2025, whatever the clock says. -/
theorem C2_week_bucket_anchoring :
    (∀ (now now2 : Int) (s0 : SessionRecord) (rest : List SessionRecord),
      getChartDateRangeFromSessions "week" now none none (s0 :: rest) =
        getChartDateRangeFromSessions "week" now2 none none (s0 :: rest) ∧
      (getChartDateRangeFromSessions "week" now none none (s0 :: rest)).length = 8 ∧
      (∀ x ∈ s0 :: rest,
        earliestSessionTs s0 (s0 :: rest) ≤ effectiveTimestamp x) ∧
      (∃ x ∈ s0 :: rest,
        earliestSessionTs s0 (s0 :: rest) = effectiveTimestamp x) ∧
      (∀ i : Nat, i < 8 →
        (getChartDateRangeFromSessions "week" now none none (s0 :: rest))[i]? =
          some
            { key :=
                dateKey (startOfDay (earliestSessionTs s0 (s0 :: rest)) + (i : Int) * dayMs)
              start := startOfDay (earliestSessionTs s0 (s0 :: rest)) + (i : Int) * dayMs
              endTime :=
                startOfDay (earliestSessionTs s0 (s0 :: rest)) + (i : Int) * dayMs
                  + dayMs - 1 })) ∧
    getChartDateRangeFromSessions "week" 1760000000000 none none
        [marchSessionA, marchSessionB] =
      [{ key := "2025-03-03", start := 1740960000000, endTime := 1741046399999 },
       { key := "2025-03-04", start := 1741046400000, endTime := 1741132799999 },
       { key := "2025-03-05", start := 1741132800000, endTime := 1741219199999 },
       { key := "2025-03-06", start := 1741219200000, endTime := 1741305599999 },
       { key := "2025-03-07", start := 1741305600000, endTime := 1741391999999 },
       { key := "2025-03-08", start := 1741392000000, endTime := 1741478399999 },
       { key := "2025-03-09", start := 1741478400000, endTime := 1741564799999 },
       { key := "2025-03-10", start := 1741564800000, endTime := 1741651199999 }] := by
  constructor
  · intro now now2 s0 rest
    refine ⟨rfl, ?_, ?_, ?_, ?_⟩
    · rw [week_buckets_eq, List.length_map, List.length_range]
    · exact earliest_fold_le_mem (s0 :: rest) (effectiveTimestamp s0)
    · rcases earliest_fold_attained (s0 :: rest) (effectiveTimestamp s0) with h | h
      · exact ⟨s0, List.mem_cons_self s0 rest, h⟩
      · exact h
    · intro i hi
      rw [week_buckets_eq, List.getElem?_map, List.getElem?_range hi]
      rfl
  · decide

/-- C2 witness: the fourth bucket of the March example is the day bucket of
March 3 plus three days. -/
theorem C2_week_bucket_anchoring_witness :
    3 < 8 ∧
    (getChartDateRangeFromSessions "week" 1760000000000 none none
        [marchSessionA, marchSessionB])[3]? =
      some
        { key :=
            dateKey
              (startOfDay (earliestSessionTs marchSessionA [marchSessionA, marchSessionB])
                + (3 : Int) * dayMs)
          start :=
            startOfDay (earliestSessionTs marchSessionA [marchSessionA, marchSessionB])
              + (3 : Int) * dayMs
          endTime :=
            startOfDay (earliestSessionTs marchSessionA [marchSessionA, marchSessionB])
              + (3 : Int) * dayMs + dayMs - 1 } :=
  ⟨by decide,
    (C2_week_bucket_anchoring.1 1760000000000 0 marchSessionA [marchSessionB]).2.2.2.2 3
      (by decide)⟩

/-- The key of the bucket a session is routed to by
`groupSessionsIntoBuckets`, if any. -/
def assignedKey (dateRange : List TimeBucket) (s : SessionRecord) : Option String :=
  (firstMatchingBucket dateRange (effectiveTimestamp s)).map TimeBucket.key

theorem groupSessions_foldl_eq (dateRange : List TimeBucket) (sessions : List SessionRecord)
    (m0 : String → List SessionRecord) (k : String) :
    sessions.foldl
      (fun map s =>
        match firstMatchingBucket dateRange (effectiveTimestamp s) with
        | some b => fun k2 => if k2 = b.key then map k2 ++ [s] else map k2
        | none => map)
      m0 k =
    m0 k ++ sessions.filter (fun s => decide (assignedKey dateRange s = some k)) := by
  induction sessions generalizing m0 with
  | nil => simp
  | cons s t ih =>
    simp only [List.foldl_cons, List.filter_cons]
    cases h : firstMatchingBucket dateRange (effectiveTimestamp s) with
    | none =>
      rw [ih]
      simp [assignedKey, h]
    | some b =>
      rw [ih]
      by_cases hk : k = b.key
      · subst hk
        simp [assignedKey, h]
      · have : (decide (assignedKey dateRange s = some k)) = false := by
          simp [assignedKey, h]
          exact fun heq => hk heq.symm
        simp [this, hk]

theorem groupSessionsIntoBuckets_eq (sessions : List SessionRecord)
    (dateRange : List TimeBucket) (k : String) :
    groupSessionsIntoBuckets sessions dateRange k =
      sessions.filter (fun s => decide (assignedKey dateRange s = some k)) := by
  unfold groupSessionsIntoBuckets
  rw [groupSessions_foldl_eq]
  simp

/-- C4: a session lands in the list under key `k` exactly when it is an
input session and the first bucket of `dateRange` (in list order) whose
closed interval contains its timestamp carries key `k`; hence an assigned
session lands under exactly one key, every grouped session comes from the
input (union of contents is a subset of the input), a session in no bucket
is dropped, and an instant equal to the inclusive end of a bucket
(`23:59:59.999`) is contained in that bucket. -/
theorem C4_group_by_first_bucket :
    ∀ (sessions : List SessionRecord) (dateRange : List TimeBucket) (k : String)
      (s : SessionRecord) (b : TimeBucket),
      (s ∈ groupSessionsIntoBuckets sessions dateRange k ↔
        s ∈ sessions ∧ assignedKey dateRange s = some k) ∧
      (∀ k2 : String,
        s ∈ groupSessionsIntoBuckets sessions dateRange k →
        s ∈ groupSessionsIntoBuckets sessions dateRange k2 → k = k2) ∧
      (s ∈ groupSessionsIntoBuckets sessions dateRange k → s ∈ sessions) ∧
      (b.start ≤ b.endTime → bucketContains b b.endTime = true) := by
  intro sessions dateRange k s b
  have hmem : s ∈ groupSessionsIntoBuckets sessions dateRange k ↔
      s ∈ sessions ∧ assignedKey dateRange s = some k := by
    rw [groupSessionsIntoBuckets_eq, List.mem_filter]
    simp
  refine ⟨hmem, ?_, ?_, ?_⟩
  · intro k2 h1 h2
    have e1 := (hmem.mp h1).2
    have hmem2 : s ∈ groupSessionsIntoBuckets sessions dateRange k2 ↔
        s ∈ sessions ∧ assignedKey dateRange s = some k2 := by
      rw [groupSessionsIntoBuckets_eq, List.mem_filter]
      simp
    have e2 := (hmem2.mp h2).2
    rw [e1] at e2
    exact Option.some_inj.mp e2
  · intro h
    exact (hmem.mp h).1
  · intro hle
    simp [bucketContains, hle]

/-- A first bucket for the grouping example, closed at `86399999`
(the `23:59:59.999` instant of epoch day zero). -/
def wBucketA : TimeBucket := { key := "A", start := 0, endTime := 86399999 }

/-- A second bucket covering the same day, to show the first one wins. -/
def wBucketB : TimeBucket := { key := "B", start := 0, endTime := 86399999 }

/-- A record timestamped exactly at the inclusive bucket end instant. -/
def boundaryRecord : SessionRecord :=
  { category := "people", totalQuestions := 1, correctAnswers := 1, skipped := 0,
    totalTime := 1, timestamp := 86399999, createdAt := 0 }

/-- C4 witness: the record sitting exactly on the bucket end instant is
grouped, and under the first of the two identical-interval buckets. -/
theorem C4_group_by_first_bucket_witness :
    (boundaryRecord ∈ [boundaryRecord] ∧
      assignedKey [wBucketA, wBucketB] boundaryRecord = some "A") ∧
    boundaryRecord ∈ groupSessionsIntoBuckets [boundaryRecord] [wBucketA, wBucketB] "A" :=
  ⟨⟨by decide, by decide⟩,
    (C4_group_by_first_bucket [boundaryRecord] [wBucketA, wBucketB] "A" boundaryRecord
      wBucketA).1.mpr ⟨by decide, by decide⟩⟩

/-- C8: classification is a pure total function; every spelling in the fixed
table maps to its canonical category after lower-casing and collapsing
whitespace runs to hyphens — `Category Match`, `categorymatch` and
`category-match` all classify as `category-match`, and
`name-that-memory-people` and `people` both classify as `people` — and every
input classifies to one of the four canonical categories or to the `other`
catch-all, never to an error. -/
theorem C8_classifier_total_table :
    classify "Category Match" = "category-match" ∧
    classify "categorymatch" = "category-match" ∧
    classify "category-match" = "category-match" ∧
    classify "name-that-memory-people" = "people" ∧
    classify "people" = "people" ∧
    classify "places" = "places" ∧
    classify "name-that-memory-places" = "places" ∧
    classify "objects" = "objects" ∧
    classify "name-that-memory-objects" = "objects" ∧
    classify "some unrecognized label" = "other" ∧
    (∀ raw : String,
      classify raw = "people" ∨ classify raw = "places" ∨ classify raw = "objects" ∨
        classify raw = "category-match" ∨ classify raw = "other") := by
  refine ⟨by decide, by decide, by decide, by decide, by decide, by decide, by decide,
    by decide, by decide, by decide, ?_⟩
  intro raw
  unfold classify
  repeat' split
  all_goals simp

/-- C3: when the remote fetch fails, `loadProgressData` serves the
process-local cache as the `Cached` tier whenever that cache is non-empty;
with an empty cache it serves whatever the durable per-user store parses to
(a parse failure is swallowed into the empty list) and every label produced
on that final path — `Local Storage` with data, `No Data` without — sits in
the `Fallback` tier; the connection flag is false, and the embedding is a
total function, so no exception escapes. -/
theorem C3_remote_failure_tiers :
    ∀ (env : LoadEnv) (selectedPeriod : String) (now : Int) (cs ce : Option Int),
      env.remote = Except.error () →
      (env.cachedGameRecords ≠ [] →
        (loadProgressData env selectedPeriod now cs ce).sessions = env.cachedGameRecords ∧
        (loadProgressData env selectedPeriod now cs ce).dataSource = "Cached Data" ∧
        tierOfDataSource (loadProgressData env selectedPeriod now cs ce).dataSource =
          some SourceTier.Cached) ∧
      (env.cachedGameRecords = [] →
        (loadProgressData env selectedPeriod now cs ce).sessions = env.localStored.getD [] ∧
        tierOfDataSource (loadProgressData env selectedPeriod now cs ce).dataSource =
          some SourceTier.Fallback) ∧
      (loadProgressData env selectedPeriod now cs ce).isFirebaseConnected = false := by
  intro env sp now cs ce h
  obtain ⟨rem, cached, lstore⟩ := env
  simp only at h
  subst h
  refine ⟨?_, ?_, ?_⟩
  · intro hne
    cases cached with
    | nil => exact absurd rfl hne
    | cons c cs2 => simp [loadProgressData, tierOfDataSource]
  · intro hnil
    subst hnil
    refine ⟨by simp [loadProgressData], ?_⟩
    rcases lstore with _ | l
    · simp [loadProgressData, tierOfDataSource]
    · cases l <;> simp [loadProgressData, tierOfDataSource]
  · cases cached <;> simp [loadProgressData]

/-- An environment with a failing remote and a populated process cache. -/
def fallbackEnv : LoadEnv :=
  { remote := Except.error (), cachedGameRecords := [exSessionA], localStored := none }

/-- C3 witness: a failing remote with a one-record cache serves the cache as
the `Cached` tier. -/
theorem C3_remote_failure_tiers_witness :
    fallbackEnv.remote = Except.error () ∧
    ((fallbackEnv.cachedGameRecords ≠ [] →
      (loadProgressData fallbackEnv "today" 0 none none).sessions =
        fallbackEnv.cachedGameRecords ∧
      (loadProgressData fallbackEnv "today" 0 none none).dataSource = "Cached Data" ∧
      tierOfDataSource (loadProgressData fallbackEnv "today" 0 none none).dataSource =
        some SourceTier.Cached) ∧
    (fallbackEnv.cachedGameRecords = [] →
      (loadProgressData fallbackEnv "today" 0 none none).sessions =
        fallbackEnv.localStored.getD [] ∧
      tierOfDataSource (loadProgressData fallbackEnv "today" 0 none none).dataSource =
        some SourceTier.Fallback) ∧
    (loadProgressData fallbackEnv "today" 0 none none).isFirebaseConnected = false) :=
  ⟨rfl, C3_remote_failure_tiers fallbackEnv "today" 0 none none rfl⟩

/-- An environment whose remote fetch succeeds with zero records. -/
def liveEmptyEnv : LoadEnv :=
  { remote := Except.ok [], cachedGameRecords := [], localStored := none }

/-- C7 counterexample: a successful remote fetch of zero records reports the
`Firebase` (Live) label but performs no cache write at all — `cacheData` is
only reached when the period-filtered list is non-empty, refuting the claim
that every successful fetch result, including an empty one, is immediately
written into the process-local cache. -/
theorem C7_empty_fetch_not_cached :
    (loadProgressData liveEmptyEnv "today" 0 none none).dataSource = "Firebase" ∧
    (loadProgressData liveEmptyEnv "today" 0 none none).cacheWrite = none ∧
    (loadProgressData liveEmptyEnv "today" 0 none none).cacheWrite ≠
      some ([] : List SessionRecord) := by
  refine ⟨rfl, ?_, ?_⟩ <;> decide

/-- C7 amended: whenever the remote fetch succeeds the reported label is
`Firebase`, i.e. the `Live` tier, regardless of record count; but the fetched
set is written to the process-local cache exactly when its period filter is
non-empty (an all-empty or out-of-period fetch writes nothing). -/
theorem C7_live_tier_conditional_cache :
    ∀ (env : LoadEnv) (selectedPeriod : String) (now : Int) (cs ce : Option Int)
      (recs : List SessionRecord),
      env.remote = Except.ok recs →
      (loadProgressData env selectedPeriod now cs ce).dataSource = "Firebase" ∧
      tierOfDataSource (loadProgressData env selectedPeriod now cs ce).dataSource =
        some SourceTier.Live ∧
      (loadProgressData env selectedPeriod now cs ce).isFirebaseConnected = true ∧
      ((loadProgressData env selectedPeriod now cs ce).cacheWrite = some recs ↔
        filterSessionsByPeriod selectedPeriod now cs ce recs ≠ []) := by
  intro env sp now cs ce recs h
  obtain ⟨rem, cached, lstore⟩ := env
  simp only at h
  subst h
  by_cases hf : filterSessionsByPeriod sp now cs ce recs = []
  · simp [loadProgressData, tierOfDataSource, hf]
  · have hl : 0 < (filterSessionsByPeriod sp now cs ce recs).length :=
      List.length_pos.mpr hf
    simp [loadProgressData, tierOfDataSource, hf, hl]

/-- A session record falling on epoch day zero. -/
def dayZeroSession : SessionRecord :=
  { category := "people", totalQuestions := 2, correctAnswers := 1, skipped := 0,
    totalTime := 10, timestamp := 50, createdAt := 0 }

/-- An environment whose remote fetch succeeds with one in-period record. -/
def liveOneEnv : LoadEnv :=
  { remote := Except.ok [dayZeroSession], cachedGameRecords := [], localStored := none }

/-- C7 witness: a successful fetch with one record of the current day
reports the Live tier and writes the fetched set through to the cache. -/
theorem C7_live_tier_conditional_cache_witness :
    liveOneEnv.remote = Except.ok [dayZeroSession] ∧
    ((loadProgressData liveOneEnv "today" 50 none none).dataSource = "Firebase" ∧
     tierOfDataSource (loadProgressData liveOneEnv "today" 50 none none).dataSource =
       some SourceTier.Live ∧
     (loadProgressData liveOneEnv "today" 50 none none).isFirebaseConnected = true ∧
     ((loadProgressData liveOneEnv "today" 50 none none).cacheWrite =
        some [dayZeroSession] ↔
       filterSessionsByPeriod "today" 50 none none [dayZeroSession] ≠ [])) :=
  ⟨rfl, C7_live_tier_conditional_cache liveOneEnv "today" 50 none none [dayZeroSession] rfl⟩

/-- A record whose remote write will fail in the counterexample. -/
def lostRecord : SessionRecord :=
  { category := "people", totalQuestions := 4, correctAnswers := 2, skipped := 1,
    totalTime := 30, timestamp := 0, createdAt := 0 }

/-- C6 counterexample: with a failing remote write, `saveGameSession` leaves
the durable local list untouched — the record is not appended — because the
single `try` block jumps to `catch` before the `localStorage` write,
refuting the claim that the local append happens unconditionally. -/
theorem C6_remote_failure_skips_local_append :
    (saveGameSession false [] lostRecord 777).localAfter = [] ∧
    (saveGameSession false [] lostRecord 777).localAfter ≠
      [] ++ [sessionWithTimestamp lostRecord 777] ∧
    (saveGameSession false [] lostRecord 777).errorCaught = true := by
  refine ⟨rfl, ?_, rfl⟩
  decide

/-- C6 amended: `saveGameSession` never surfaces a remote failure (the error
is caught and logged), and it appends the record to the durable per-user
local list exactly when the remote write succeeded; on a remote failure the
local append is skipped. -/
theorem C6_append_conditional_on_remote :
    ∀ (remoteOk : Bool) (existing : List SessionRecord) (rec : SessionRecord) (nowTs : Int),
      (saveGameSession remoteOk existing rec nowTs).errorCaught = !remoteOk ∧
      (remoteOk = true →
        (saveGameSession remoteOk existing rec nowTs).localAfter =
          existing ++ [sessionWithTimestamp rec nowTs] ∧
        (saveGameSession remoteOk existing rec nowTs).remoteSaved = true) ∧
      (remoteOk = false →
        (saveGameSession remoteOk existing rec nowTs).localAfter = existing ∧
        (saveGameSession remoteOk existing rec nowTs).remoteSaved = false) := by
  intro remoteOk existing rec nowTs
  cases remoteOk <;> simp [saveGameSession]

/-- C6 witness: with a succeeding remote write the record, stamped with the
current time, is appended to the durable list. -/
theorem C6_append_conditional_on_remote_witness :
    (true = true) ∧
    ((saveGameSession true [] lostRecord 777).localAfter =
      [] ++ [sessionWithTimestamp lostRecord 777] ∧
     (saveGameSession true [] lostRecord 777).remoteSaved = true) :=
  ⟨rfl, (C6_append_conditional_on_remote true [] lostRecord 777).2.1 rfl⟩

/-- C9: the fallback refresh timer is armed with a `setInterval` delay of
3000 milliseconds — three seconds, not the 30 seconds stated by the claim
and by the comments in `setupAutoRefresh` itself — while the staleness gate
evaluated on each firing refreshes exactly when more than 30000 ms have
passed since the last published update. -/
theorem C9_timer_interval_mismatch :
    autoRefreshIntervalMs = 3000 ∧
    autoRefreshIntervalMs ≠ 30000 ∧
    autoRefreshFires 30001 0 = true ∧
    autoRefreshFires 30000 0 = false ∧
    (∀ nowMs lastDataUpdate : Int,
      autoRefreshFires nowMs lastDataUpdate = true ↔ nowMs - lastDataUpdate > 30000) := by
  refine ⟨rfl, by decide, by decide, by decide, ?_⟩
  intro nowMs lastDataUpdate
  simp [autoRefreshFires]
